import Mathlib

/-!
Verification of the graphql-agent repository core: the Query Executor
(`src/mastra/tools/query-graphql.ts`), the generation / repair steps
(`src/mastra/workflows/graphql-execution.ts`, `src/mastra/steps/generate-query.ts`
and the fixQuery step variant), the Result Analyzer relevance parsing, and the
bounded repair loop.  External effects (the GraphQL `parse` function, `fetch`,
`JSON.parse`, and the language-model agents) are modelled as oracle inputs:
each Lean function takes the outcome of every external call as an explicit
argument and computes exactly what the TypeScript code computes from it.
JavaScript strings are modelled as Lean `String`; the opaque `data` payloads
are represented by their `JSON.stringify` serialization (a `String`), since the
code only ever inspects them through that serialization.
-/

namespace GraphQLAgent

/-! ### Character-level string helpers

JavaScript `text.split(" ")` splits on every occurrence of the single space
character, keeping empty pieces; `splitChars ' '` is the same operation on the
character list of a Lean string. -/

def splitChars (sep : Char) : List Char → List (List Char)
  | [] => [[]]
  | c :: cs =>
    let r := splitChars sep cs
    if c = sep then [] :: r
    else
      match r with
      | [] => [[c]]
      | h :: t => (c :: h) :: t

/-- Model of JavaScript `s.split(" ")` (word splitting used by the response
truncation in `processGraphQLResponse`). -/
def spaceSplit (s : String) : List String :=
  (splitChars ' ' s.toList).map List.asString

/-- Model of JavaScript `words.join(" ")`. -/
def joinSpace (ws : List String) : String :=
  String.intercalate " " ws

/-! ### Query Executor data model (`src/mastra/tools/query-graphql.ts`) -/

/-- Operation kind of a GraphQL `OperationDefinition` node, as classified by
the `graphql` package parser used at lines 148-151 of query-graphql.ts. -/
inductive OperationType
  | query
  | mutation
  | subscription
deriving DecidableEq, Repr

/-- One `DefinitionNode` of a parsed GraphQL document: the executor only looks
at whether a definition is an `OperationDefinition` and at its operation. -/
inductive GQLDefinition
  | operationDefinition (op : OperationType)
  | other
deriving DecidableEq, Repr

/-- A parsed GraphQL document is its list of definitions. -/
abbrev GQLDocument := List GQLDefinition

/-- Embedding of `parsedQuery.definitions.some(def => def.kind ===
"OperationDefinition" && def.operation === "mutation")`. -/
def containsMutation (doc : GQLDocument) : Bool :=
  doc.any fun d =>
    match d with
    | .operationDefinition .mutation => true
    | _ => false

/-- Argument record of `processGraphQLResponse` (query-graphql.ts lines 44-55).
`data` is the serialized payload (`none` models `null`/`undefined`, which in a
GraphQL response body is the only falsy shape `data` takes: a present `data`
value is an object, hence truthy). -/
structure GQLToolResult where
  success : Bool
  data : Option String
  errors : Option (List String)
  message : String
deriving DecidableEq, Repr

/-- Return shape of `processGraphQLResponse`: the truncation branch drops the
`message` field (lines 75-79), the no-data branch keeps it (lines 57-64). -/
structure ProcessedResponse where
  success : Bool
  data : Option String
  errors : Option (List String)
  message : Option String
deriving DecidableEq, Repr

/-- Embedding of the word-count truncation applied to the serialized payload:
`if (jsonString && jsonString.split(" ").length > options.maxTokens)` keep the
first `maxTokens` space-separated pieces and append the truncation suffix
(query-graphql.ts lines 66-73). -/
def truncateWords (maxTokens : Nat) (truncationSuffix : String) (jsonString : String) : String :=
  if jsonString ≠ "" ∧ (spaceSplit jsonString).length > maxTokens then
    joinSpace ((spaceSplit jsonString).take maxTokens) ++ truncationSuffix
  else
    jsonString

/-- Embedding of `processGraphQLResponse` (query-graphql.ts lines 44-80). -/
def processGraphQLResponse (result : GQLToolResult) (maxTokens : Nat)
    (truncationSuffix : String) : ProcessedResponse :=
  match result.data with
  | none =>
    { success := result.success
      data := none
      errors := result.errors
      message := some result.message }
  | some jsonString =>
    { success := result.success
      data := some (truncateWords maxTokens truncationSuffix jsonString)
      errors := result.errors
      message := none }

/-- Default `truncationSuffix` of the tool options (query-graphql.ts line 103). -/
def defaultTruncationSuffix : String := "... [content truncated due to size limits]"

/-- Default `maxTokens` of the tool options (query-graphql.ts line 102). -/
def defaultMaxTokens : Nat := 25000

/-- Parsed JSON body of a 2xx GraphQL HTTP response: an optional `data` value
(serialized) and an optional `errors` array (opaque error descriptors). -/
structure GraphQLBody where
  data : Option String
  errors : Option (List String)

/-- Outcome of the `fetch` call: `ok` is `response.ok` (2xx), `statusText` the
HTTP status text, and `body` the outcome of `response.json()`. -/
structure HttpResponse where
  ok : Bool
  statusText : String
  body : Except String GraphQLBody

/-- Oracle bundle for one `execute` call: the outcome of `parse(query)`, of
`JSON.parse(variables)` (consulted only when a non-empty variables string is
supplied), and of the HTTP request. An `Except.error` carries the thrown
exception's message. -/
structure ExecEnv where
  parseResult : Except String GQLDocument
  variablesParse : Except String Unit
  fetchResult : Except String HttpResponse

/-- Return value of the tool's `execute`, extended with a ghost `httpRequested`
flag recording whether the `fetch` call was reached. -/
structure ExecOutput where
  success : Bool
  data : Option String
  errors : Option (List String)
  message : Option String
  httpRequested : Bool
deriving DecidableEq, Repr

/-- The `catch` branch of `execute` (query-graphql.ts lines 263-275): a thrown
error with message `msg` becomes a failure result carrying that message. -/
def executeCatch (msg : String) (http : Bool) : ExecOutput :=
  { success := false
    data := none
    errors := some [msg]
    message := some ("Failed to execute GraphQL query: " ++ msg)
    httpRequested := http }

/-- Outcome of `variables ? JSON.parse(variables) : undefined`: the JSON parser
is only consulted for a truthy (present and non-empty) variables string. -/
def variablesOutcome (variablesStr : Option String) (env : ExecEnv) : Except String Unit :=
  match variablesStr with
  | none => .ok ()
  | some v => if v = "" then .ok () else env.variablesParse

/-- Fixed error text of the mutation guard (query-graphql.ts line 164). -/
def mutationGuardError : String :=
  "Mutations are not allowed unless enabled in configuration"

/-- Embedding of the tool's `execute` (query-graphql.ts lines 130-276).
`allowMutations`, `toolMaxTokens`, `truncationSuffix` are the tool options;
`overrideMaxTokens` is the per-call `maxTokens` of the input context (merged at
lines 136-141); `variablesStr` is the optional `variables` string of the input. -/
def execute (allowMutations : Bool) (toolMaxTokens : Nat) (truncationSuffix : String)
    (overrideMaxTokens : Option Nat) (variablesStr : Option String) (env : ExecEnv) :
    ExecOutput :=
  let maxTokens := overrideMaxTokens.getD toolMaxTokens
  match env.parseResult with
  | .error msg => executeCatch msg false
  | .ok parsedQuery =>
    if containsMutation parsedQuery && !allowMutations then
      let p := processGraphQLResponse
        { success := false
          data := none
          errors := some [mutationGuardError]
          message := "Mutations are not allowed" } maxTokens truncationSuffix
      { success := p.success, data := p.data, errors := p.errors,
        message := p.message, httpRequested := false }
    else
      match variablesOutcome variablesStr env with
      | .error msg => executeCatch msg false
      | .ok _ =>
        match env.fetchResult with
        | .error msg => executeCatch msg true
        | .ok response =>
          if !response.ok then
            executeCatch ("GraphQL request failed: " ++ response.statusText) true
          else
            match response.body with
            | .error msg => executeCatch msg true
            | .ok result =>
              match result.errors with
              | some es =>
                if es.length > 0 then
                  let p := processGraphQLResponse
                    { success := false
                      data := result.data
                      errors := some es
                      message := "GraphQL query executed but returned errors" }
                    maxTokens truncationSuffix
                  { success := p.success, data := p.data, errors := p.errors,
                    message := p.message, httpRequested := true }
                else
                  let p := processGraphQLResponse
                    { success := true
                      data := result.data
                      errors := none
                      message := "GraphQL query executed successfully" }
                    maxTokens truncationSuffix
                  { success := p.success, data := p.data, errors := p.errors,
                    message := p.message, httpRequested := true }
              | none =>
                let p := processGraphQLResponse
                  { success := true
                    data := result.data
                    errors := none
                    message := "GraphQL query executed successfully" }
                  maxTokens truncationSuffix
                { success := p.success, data := p.data, errors := p.errors,
                  message := p.message, httpRequested := true }

/-- Helper: the empty string splits into the single empty word. -/
theorem spaceSplit_empty : spaceSplit "" = [""] := rfl

/-- C2: for every input query string that parses as a GraphQL document
containing a mutation operation, when mutations are not enabled in
configuration, `execute` returns `success = false` with the fixed
"mutations not allowed" error and performs no HTTP request. -/
theorem c2_mutation_guard (toolMaxTokens : Nat) (truncationSuffix : String)
    (overrideMaxTokens : Option Nat) (variablesStr : Option String) (env : ExecEnv)
    (doc : GQLDocument) (hparse : env.parseResult = .ok doc)
    (hmut : containsMutation doc = true) :
    (execute false toolMaxTokens truncationSuffix overrideMaxTokens variablesStr env).success
        = false ∧
    (execute false toolMaxTokens truncationSuffix overrideMaxTokens variablesStr env).errors
        = some [mutationGuardError] ∧
    (execute false toolMaxTokens truncationSuffix overrideMaxTokens variablesStr env).httpRequested
        = false := by
  simp [execute, hparse, hmut, processGraphQLResponse]

/-- Witness for `c2_mutation_guard`: a concrete document `mutation { ... }`
with mutations disabled is rejected without any HTTP call. -/
theorem c2_mutation_guard_witness :
    (execute false defaultMaxTokens defaultTruncationSuffix none none
        ⟨.ok [.operationDefinition .mutation], .ok (), .error "unreachable"⟩).success = false ∧
    (execute false defaultMaxTokens defaultTruncationSuffix none none
        ⟨.ok [.operationDefinition .mutation], .ok (), .error "unreachable"⟩).errors
      = some [mutationGuardError] ∧
    (execute false defaultMaxTokens defaultTruncationSuffix none none
        ⟨.ok [.operationDefinition .mutation], .ok (), .error "unreachable"⟩).httpRequested
      = false :=
  c2_mutation_guard defaultMaxTokens defaultTruncationSuffix none none
    ⟨.ok [.operationDefinition .mutation], .ok (), .error "unreachable"⟩
    [.operationDefinition .mutation] rfl (by decide)

/-- C10: an input that fails GraphQL syntax parsing yields `success = false`
with the parser's message as the single error and no HTTP request; conversely
an HTTP request is only ever issued for an input that parsed successfully and
passed the mutation guard. -/
theorem c10_parse_guard (allowMutations : Bool) (toolMaxTokens : Nat)
    (truncationSuffix : String) (overrideMaxTokens : Option Nat)
    (variablesStr : Option String) (env : ExecEnv) :
    (∀ msg, env.parseResult = .error msg →
      (execute allowMutations toolMaxTokens truncationSuffix overrideMaxTokens variablesStr
          env).success = false ∧
      (execute allowMutations toolMaxTokens truncationSuffix overrideMaxTokens variablesStr
          env).errors = some [msg] ∧
      (execute allowMutations toolMaxTokens truncationSuffix overrideMaxTokens variablesStr
          env).httpRequested = false) ∧
    ((execute allowMutations toolMaxTokens truncationSuffix overrideMaxTokens variablesStr
        env).httpRequested = true →
      ∃ doc, env.parseResult = .ok doc ∧
        (containsMutation doc = true → allowMutations = true)) := by
  constructor
  · intro msg hmsg
    simp [execute, hmsg, executeCatch]
  · intro hreq
    match hp : env.parseResult with
    | .error msg =>
      rw [execute] at hreq
      simp [hp, executeCatch] at hreq
    | .ok doc =>
      refine ⟨doc, rfl, ?_⟩
      intro hmut
      by_contra hallow
      have hfalse : allowMutations = false := by
        cases allowMutations
        · rfl
        · exact absurd rfl hallow
      rw [execute] at hreq
      simp [hp, hmut, hfalse, processGraphQLResponse] at hreq

/-- Witness for `c10_parse_guard`: a concrete syntax error is surfaced without
any HTTP request. -/
theorem c10_parse_guard_witness :
    (execute false defaultMaxTokens defaultTruncationSuffix none none
        ⟨.error "Syntax Error: Unexpected Name", .ok (), .error "down"⟩).success = false ∧
    (execute false defaultMaxTokens defaultTruncationSuffix none none
        ⟨.error "Syntax Error: Unexpected Name", .ok (), .error "down"⟩).errors
      = some ["Syntax Error: Unexpected Name"] ∧
    (execute false defaultMaxTokens defaultTruncationSuffix none none
        ⟨.error "Syntax Error: Unexpected Name", .ok (), .error "down"⟩).httpRequested
      = false :=
  (c10_parse_guard false defaultMaxTokens defaultTruncationSuffix none none
    ⟨.error "Syntax Error: Unexpected Name", .ok (), .error "down"⟩).1
    "Syntax Error: Unexpected Name" rfl

/-- C5: truncation behavior of `processGraphQLResponse`. A serialized payload
with more than `maxTokens` space-separated words is replaced by exactly its
first `maxTokens` words followed by the fixed truncation marker, whose size is
the size of those words plus the marker; a string of at most `maxTokens` words
is left unchanged (so re-truncating an already short string is a no-op). -/
theorem c5_truncation (maxTokens : Nat) (suffix s : String) (hmt : 1 ≤ maxTokens) :
    ((spaceSplit s).length > maxTokens →
      truncateWords maxTokens suffix s
          = joinSpace ((spaceSplit s).take maxTokens) ++ suffix ∧
      (truncateWords maxTokens suffix s).length
          = (joinSpace ((spaceSplit s).take maxTokens)).length + suffix.length) ∧
    (∀ t, (spaceSplit t).length ≤ maxTokens → truncateWords maxTokens suffix t = t) ∧
    (∀ result : GQLToolResult, result.data = some s →
      (processGraphQLResponse result maxTokens suffix).data
          = some (truncateWords maxTokens suffix s)) := by
  refine ⟨?_, ?_, ?_⟩
  · intro hlong
    have hne : s ≠ "" := by
      intro he
      rw [he, spaceSplit_empty] at hlong
      simp at hlong
      omega
    rw [truncateWords, if_pos ⟨hne, hlong⟩]
    exact ⟨rfl, String.length_append _ _⟩
  · intro t hshort
    rw [truncateWords, if_neg]
    intro ⟨_, hgt⟩
    omega
  · intro result hdata
    rw [processGraphQLResponse, hdata]

/-- Witness for `c5_truncation` at `maxTokens = 10` on a 50-word payload: the
output is the first 10 words plus the marker, and a 10-word string is a no-op. -/
theorem c5_truncation_witness :
    truncateWords 10 defaultTruncationSuffix
        "w1 w2 w3 w4 w5 w6 w7 w8 w9 w10 w11 w12 w13 w14 w15 w16 w17 w18 w19 w20 w21 w22 w23 w24 w25 w26 w27 w28 w29 w30 w31 w32 w33 w34 w35 w36 w37 w38 w39 w40 w41 w42 w43 w44 w45 w46 w47 w48 w49 w50"
      = "w1 w2 w3 w4 w5 w6 w7 w8 w9 w10" ++ defaultTruncationSuffix ∧
    truncateWords 10 defaultTruncationSuffix "w1 w2 w3 w4 w5 w6 w7 w8 w9 w10"
      = "w1 w2 w3 w4 w5 w6 w7 w8 w9 w10" := by
  have h := c5_truncation 10 defaultTruncationSuffix
    "w1 w2 w3 w4 w5 w6 w7 w8 w9 w10 w11 w12 w13 w14 w15 w16 w17 w18 w19 w20 w21 w22 w23 w24 w25 w26 w27 w28 w29 w30 w31 w32 w33 w34 w35 w36 w37 w38 w39 w40 w41 w42 w43 w44 w45 w46 w47 w48 w49 w50"
    (by decide)
  refine ⟨?_, h.2.1 "w1 w2 w3 w4 w5 w6 w7 w8 w9 w10" (by decide)⟩
  have h1 := (h.1 (by decide)).1
  rw [h1]
  decide

/-- Environment for the C4 counterexample: a 2xx response with no errors whose
`data` serializes to `"a b c"`, executed with a per-call `maxTokens` of 1. -/
def c4Env : ExecEnv :=
  ⟨.ok [.operationDefinition .query], .ok (), .ok ⟨true, "OK", .ok ⟨some "a b c", none⟩⟩⟩

/-- Counterexample to C4 as stated: a 2xx response with no errors yields
`success = true`, but the returned `data` is not equal to the body's `data`
field — with `maxTokens = 1` the payload `"a b c"` comes back word-truncated
with the marker appended. -/
theorem c4_counterexample :
    (execute false defaultMaxTokens defaultTruncationSuffix (some 1) none c4Env).success
        = true ∧
    (execute false defaultMaxTokens defaultTruncationSuffix (some 1) none c4Env).data
        ≠ some "a b c" ∧
    (execute false defaultMaxTokens defaultTruncationSuffix (some 1) none c4Env).data
        = some ("a" ++ defaultTruncationSuffix) := by
  decide

/-- C4 (amended): HTTP response normalization of `execute`. A non-2xx response
yields `success = false` with an error describing the HTTP status; a 2xx
response with a non-empty `errors` array yields `success = false`, `errors`
equal to that array, and `data` equal to the body's (possibly word-truncated)
`data`; a 2xx response with no errors yields `success = true` and `data` equal
to the body's (possibly word-truncated) `data`. In both 2xx cases `data` is
returned unchanged whenever its serialization is within the word bound. -/
theorem c4_http_normalization (allowMutations : Bool) (toolMaxTokens : Nat)
    (suffix : String) (overrideMaxTokens : Option Nat) (variablesStr : Option String)
    (env : ExecEnv) (doc : GQLDocument) (resp : HttpResponse)
    (hparse : env.parseResult = .ok doc)
    (hguard : (containsMutation doc && !allowMutations) = false)
    (hvars : variablesOutcome variablesStr env = .ok ())
    (hfetch : env.fetchResult = .ok resp) :
    (resp.ok = false →
      (execute allowMutations toolMaxTokens suffix overrideMaxTokens variablesStr env).success
          = false ∧
      (execute allowMutations toolMaxTokens suffix overrideMaxTokens variablesStr env).errors
          = some ["GraphQL request failed: " ++ resp.statusText]) ∧
    (∀ body es, resp.ok = true → resp.body = .ok body → body.errors = some es → es ≠ [] →
      (execute allowMutations toolMaxTokens suffix overrideMaxTokens variablesStr env).success
          = false ∧
      (execute allowMutations toolMaxTokens suffix overrideMaxTokens variablesStr env).errors
          = some es ∧
      (execute allowMutations toolMaxTokens suffix overrideMaxTokens variablesStr env).data
          = body.data.map (truncateWords (overrideMaxTokens.getD toolMaxTokens) suffix) ∧
      (∀ s, body.data = some s →
        (spaceSplit s).length ≤ overrideMaxTokens.getD toolMaxTokens →
        (execute allowMutations toolMaxTokens suffix overrideMaxTokens variablesStr env).data
            = some s)) ∧
    (∀ body, resp.ok = true → resp.body = .ok body →
      (body.errors = none ∨ body.errors = some []) →
      (execute allowMutations toolMaxTokens suffix overrideMaxTokens variablesStr env).success
          = true ∧
      (execute allowMutations toolMaxTokens suffix overrideMaxTokens variablesStr env).errors
          = none ∧
      (execute allowMutations toolMaxTokens suffix overrideMaxTokens variablesStr env).data
          = body.data.map (truncateWords (overrideMaxTokens.getD toolMaxTokens) suffix) ∧
      (∀ s, body.data = some s →
        (spaceSplit s).length ≤ overrideMaxTokens.getD toolMaxTokens →
        (execute allowMutations toolMaxTokens suffix overrideMaxTokens variablesStr env).data
            = some s)) := by
  refine ⟨?_, ?_, ?_⟩
  · intro hok
    simp [execute, hparse, hguard, hvars, hfetch, hok, executeCatch]
  · intro body es hok hbody herrs hne
    have hlen : 0 < es.length := List.length_pos.mpr hne
    refine ⟨?_, ?_, ?_, ?_⟩
    · cases hd : body.data <;>
        simp [execute, hparse, hguard, hvars, hfetch, hok, hbody, herrs, hlen,
          processGraphQLResponse, hd]
    · cases hd : body.data <;>
        simp [execute, hparse, hguard, hvars, hfetch, hok, hbody, herrs, hlen,
          processGraphQLResponse, hd]
    · cases hd : body.data <;>
        simp [execute, hparse, hguard, hvars, hfetch, hok, hbody, herrs, hlen,
          processGraphQLResponse, hd]
    · intro s hd hshort
      have hnt : truncateWords (overrideMaxTokens.getD toolMaxTokens) suffix s = s := by
        rw [truncateWords, if_neg]
        intro ⟨_, hgt⟩
        omega
      simp [execute, hparse, hguard, hvars, hfetch, hok, hbody, herrs, hlen,
        processGraphQLResponse, hd, hnt]
  · intro body hok hbody herrs
    refine ⟨?_, ?_, ?_, ?_⟩
    · rcases herrs with h | h <;> cases hd : body.data <;>
        simp [execute, hparse, hguard, hvars, hfetch, hok, hbody, h,
          processGraphQLResponse, hd]
    · rcases herrs with h | h <;> cases hd : body.data <;>
        simp [execute, hparse, hguard, hvars, hfetch, hok, hbody, h,
          processGraphQLResponse, hd]
    · rcases herrs with h | h <;> cases hd : body.data <;>
        simp [execute, hparse, hguard, hvars, hfetch, hok, hbody, h,
          processGraphQLResponse, hd]
    · intro s hd hshort
      have hnt : truncateWords (overrideMaxTokens.getD toolMaxTokens) suffix s = s := by
        rw [truncateWords, if_neg]
        intro ⟨_, hgt⟩
        omega
      rcases herrs with h | h <;>
        simp [execute, hparse, hguard, hvars, hfetch, hok, hbody, h,
          processGraphQLResponse, hd, hnt]

/-- Witness for `c4_http_normalization`: a concrete 2xx response carrying a
non-empty `errors` array is normalized to a failure that keeps the array and
the partial data. -/
theorem c4_http_normalization_witness :
    (execute false defaultMaxTokens defaultTruncationSuffix none none
        ⟨.ok [.operationDefinition .query], .ok (),
          .ok ⟨true, "OK", .ok ⟨some "x", some ["Cannot query field foo"]⟩⟩⟩).success
        = false ∧
    (execute false defaultMaxTokens defaultTruncationSuffix none none
        ⟨.ok [.operationDefinition .query], .ok (),
          .ok ⟨true, "OK", .ok ⟨some "x", some ["Cannot query field foo"]⟩⟩⟩).errors
        = some ["Cannot query field foo"] := by
  have h := (c4_http_normalization false defaultMaxTokens defaultTruncationSuffix none none
    ⟨.ok [.operationDefinition .query], .ok (),
      .ok ⟨true, "OK", .ok ⟨some "x", some ["Cannot query field foo"]⟩⟩⟩
    [.operationDefinition .query]
    ⟨true, "OK", .ok ⟨some "x", some ["Cannot query field foo"]⟩⟩
    rfl (by decide) rfl rfl).2.1
    ⟨some "x", some ["Cannot query field foo"]⟩ ["Cannot query field foo"]
    rfl rfl rfl (by decide)
  exact ⟨h.1, h.2.1⟩

/-! ### Tag extraction (the `<tag>([\s\S]*?)</tag>` regexes)

The generation and repair steps extract sections from the agent's free-text
response with non-greedy regexes.  For such a pattern the JavaScript engine
finds the first occurrence of the opening literal that is eventually followed
by the closing literal, and captures the shortest text in between; since no
occurrence of `</tag>` can overlap an occurrence of `<tag>`, this equals:
take the text after the first `<tag>`, up to the first `</tag>` in it. -/

/-- First occurrence of `pat` in a character list: returns the text before the
occurrence and the text after it. -/
def findSub (pat : List Char) : List Char → Option (List Char × List Char)
  | [] => if pat.isEmpty then some ([], []) else none
  | c :: cs =>
    if pat.isPrefixOf (c :: cs) then some ([], (c :: cs).drop pat.length)
    else
      match findSub pat cs with
      | some (pre, rest) => some (c :: pre, rest)
      | none => none

/-- Model of `text.match(/<tag>([\s\S]*?)<\/tag>/)?.[1]`. -/
def extractBetween (openTag closeTag text : String) : Option String :=
  match findSub openTag.toList text.toList with
  | none => none
  | some (_, rest) =>
    match findSub closeTag.toList rest with
    | none => none
    | some (content, _) => some (List.asString content)

/-- Whitespace recognized by JavaScript `\s` and `trim()` (ASCII subset; the
repository's strings are ASCII). -/
def isJsWhitespace (c : Char) : Bool :=
  c = ' ' || c = '\t' || c = '\n' || c = '\r' || c = '\x0b' || c = '\x0c'

/-- Model of JavaScript `s.trim()`. -/
def jsTrim (s : String) : String :=
  List.asString (((s.toList.dropWhile isJsWhitespace).reverse.dropWhile
    isJsWhitespace).reverse)

/-! ### The fixQuery repair step of `graphql-execution.ts` (lines 308-539)

The repair prompt template is copied verbatim from the template literal at
lines 348-476, split at its seven `${...}` insertion points.  Braces and
apostrophes appear as `\x7b`, `\x7d`, `\x27` escapes. -/

/-- Static text of the fixQuery repair prompt template, piece 1. -/
def fixPart1 : String :=
  "\n\t\t\tYou are an AI assistant specialized in fixing GraphQL queries that have failed to execute. Your task is to analyze the error, review the schema, and provide a corrected version of the query and variables that will successfully run against the GraphQL server.\n\nFirst, let\x27s review the context and necessary information:\n\n<original_question>\n"

/-- Static text of the fixQuery repair prompt template, piece 2. -/
def fixPart2 : String :=
  "\n</original_question>\n\n<failed_query>\n"

/-- Static text of the fixQuery repair prompt template, piece 3. -/
def fixPart3 : String :=
  "\n</failed_query>\n\n<failed_variables>\n"

/-- Static text of the fixQuery repair prompt template, piece 4. -/
def fixPart4 : String :=
  "\n</failed_variables>\n\n<query_explanation>\n"

/-- Static text of the fixQuery repair prompt template, piece 5. -/
def fixPart5 : String :=
  "\n</query_explanation>\n\n<error_message>\n"

/-- Static text of the fixQuery repair prompt template, piece 6. -/
def fixPart6 : String :=
  "\n</error_message>\n\nHere\x27s an example of a successful query for reference:\n\n<successful_query>\nquery getRoundForExplorer($roundId: String!, $chainId: Int!) \x7b\n  rounds(\n    limit: 1\n    where: \x7b\n      id: \x7b _eq: $roundId \x7d\n      chainId: \x7b _eq: $chainId \x7d\n      roundMetadata: \x7b _isNull: false \x7d\n    \x7d\n  ) \x7b\n    id\n    chainId\n    uniqueDonorsCount\n    applicationsStartTime\n    applicationsEndTime\n    donationsStartTime\n    donationsEndTime\n    matchTokenAddress\n    roundMetadata\n    roundMetadataCid\n    applicationMetadata\n    applicationMetadataCid\n    strategyId\n    projectId\n    strategyAddress\n    strategyName\n    readyForPayoutTransaction\n    applications(where: \x7b status: \x7b _eq: APPROVED \x7d \x7d) \x7b\n      id\n      projectId\n      status\n      metadata\n      anchorAddress\n      project \x7b\n        id\n        anchorAddress\n      \x7d\n    \x7d\n  \x7d\n\x7d\n</successful_query>\n\n<successful_variables>\n\x7b\n  \"roundId\": \"865\",\n  \"chainId\": 42161\n\x7d\n</successful_variables>\n\nAdditional context for active GG23 rounds:\n- All rounds are currently active on Arbitrum network (chainId: 42161)\n- dApps and Apps round (roundId: 867)\n- Web3 Infrastructure round (roundId: 865)\n- Developer Tooling and Libraries round (roundId: 863)\n\n<graphql_schema>\n"

/-- Static text of the fixQuery repair prompt template, piece 7. -/
def fixPart7 : String :=
  "\n</graphql_schema>\n\n<relevant_source_code_comments>\n"

/-- Static text of the fixQuery repair prompt template, piece 8. -/
def fixPart8 : String :=
  "\n</relevant_source_code_comments>\n\nNow, please follow these steps to analyze and fix the query:\n\n1. Analyze the error message, GraphQL schema, and failed query.\n2. Identify potential issues, such as:\n   - Non-existent field names\n   - Missing or incorrect arguments\n   - Syntax errors in arguments or filters\n   - Invalid nested fields\n   - Problems with variable definitions or usage\n   - Mismatches between query variables and provided JSON\n3. Compare the failed query with the successful query example.\n4. Brainstorm multiple potential fixes that would result in a different query from the original.\n5. Choose the most appropriate fix that addresses the error and improves the query.\n6. Implement the chosen fix in both the query and variables.\n7. Ensure the new query is different from the original query.\n8. Format your response as shown in the example below.\n\nPlease wrap your output  as described below. Do not deviate from the format\n\nOnly return output that matches the below structure:\n\nExample output structure:\n<query>\nquery ExampleQuery($exampleVar: String!) \x7b\n  exampleField(input: $exampleVar) \x7b\n    subField1\n    subField2\n  \x7d\n\x7d\n</query>\n<variables>\n\x7b\n  \"exampleVar\": \"exampleValue\"\n\x7d\n</variables>\n\nNow, please proceed with your analysis and correction of the failed GraphQL query.\nYou are an AI assistant tasked with fixing a GraphQL query that failed to execute. Your goal is to correct the query and variables so they can successfully run against the GraphQL server.\n\t\t\t"

/-- The repair prompt of fixQuery (graphql-execution.ts lines 348-476), as a
function of the interpolated values.  `errorText` is the error message after
the `typeof error === "string" ? error : JSON.stringify(error)` dispatch;
`mermaid` is the rendering `generateMermaidDiagram(JSON.parse(schema))`. -/
def fixQueryPrompt (prompt originalQuery originalVariables originalExplanation
    errorText mermaid relevantSourceCode : String) : String :=
  fixPart1 ++ prompt ++ fixPart2 ++ originalQuery ++ fixPart3 ++ originalVariables ++
    fixPart4 ++ originalExplanation ++ fixPart5 ++ errorText ++ fixPart6 ++ mermaid ++
    fixPart7 ++
    (if relevantSourceCode = "" then "No relevant source code comments found."
      else relevantSourceCode) ++
    fixPart8

/-- Output record of the fixQuery step (schema `queryResponse`, lines 85-91 of
graphql-execution.ts; the `variables` field is named `variablesText` because
`variables` is a Lean keyword). -/
structure FixQueryOutput where
  response : String
  query : String
  variablesText : String
  explanation : String
  status : Bool
deriving DecidableEq, Repr

/-- Outcome of one `graphqlQuery.execute` call as seen by the workflow steps:
the success flag and the serialized `data` payload. -/
structure GqlCallResult where
  success : Bool
  dataJson : String
deriving DecidableEq, Repr

/-- Embedding of the fixQuery step of graphql-execution.ts (lines 308-539).
`engine` is the agent oracle (maps the prompt to the generated text, `none`
for a missing or empty response, matching `if (!res || !res.text)`);
`executor` is the `graphqlQuery` tool oracle; `errorText` is `none` when the
previous step's `error` input is falsy.  Besides the step output we return the
list of (query, variables) pairs submitted to the Query Executor. -/
def fixQueryStep (prompt schema mermaid relevantSourceCode originalQuery
    originalVariables originalExplanation : String) (errorText : Option String)
    (engine : String → Option String)
    (executor : String → String → GqlCallResult) :
    FixQueryOutput × List (String × String) :=
  if prompt = "" ∨ schema = "" ∨ originalQuery = "" ∨ originalVariables = "" ∨
      errorText = none then
    (⟨"", "", "", "Missing required data for fixQuery step", false⟩, [])
  else
    match errorText with
    | none => (⟨"", "", "", "Missing required data for fixQuery step", false⟩, [])
    | some err =>
      match engine (fixQueryPrompt prompt originalQuery originalVariables
          originalExplanation err mermaid relevantSourceCode) with
      | none => (⟨"", "", "", "Failed to generate fixed query", false⟩, [])
      | some text =>
        match extractBetween "<query>" "</query>" text,
            extractBetween "<variables>" "</variables>" text with
        | none, none => (⟨"", "", "", "Failed to generate fixed query", false⟩, [])
        | some qm, some vm =>
          let correctedQuery := if qm = "" then originalQuery else jsTrim qm
          let correctedVariables := if vm = "" then originalVariables else jsTrim vm
          let gql := executor correctedQuery correctedVariables
          if gql.success then
            (⟨gql.dataJson, correctedQuery, correctedVariables, text, true⟩,
              [(correctedQuery, correctedVariables)])
          else
            (⟨"", "", "", text, false⟩, [(correctedQuery, correctedVariables)])
        | _, _ => (⟨"", "", "", text, false⟩, [])

/-- C3: the repair prompt built for the next attempt contains verbatim the
failed attempt's query, variables, explanation and serialized execution
errors; and the fixQuery step executes exactly the (trimmed) query the engine
returned — with no condition relating it to the failed query, so a
character-identical repair is executed rather than deduplicated or skipped. -/
theorem c3_repair_prompt_and_execution (prompt schema mermaid relevantSourceCode
    originalQuery originalVariables originalExplanation err text qm vm : String)
    (engine : String → Option String) (executor : String → String → GqlCallResult)
    (hp : prompt ≠ "") (hs : schema ≠ "") (hq : originalQuery ≠ "")
    (hv : originalVariables ≠ "")
    (heng : engine (fixQueryPrompt prompt originalQuery originalVariables
        originalExplanation err mermaid relevantSourceCode) = some text)
    (hqm : extractBetween "<query>" "</query>" text = some qm) (hqm2 : qm ≠ "")
    (hvm : extractBetween "<variables>" "</variables>" text = some vm)
    (hvm2 : vm ≠ "") :
    (∃ a b, fixQueryPrompt prompt originalQuery originalVariables originalExplanation
        err mermaid relevantSourceCode = a ++ originalQuery ++ b) ∧
    (∃ a b, fixQueryPrompt prompt originalQuery originalVariables originalExplanation
        err mermaid relevantSourceCode = a ++ originalVariables ++ b) ∧
    (∃ a b, fixQueryPrompt prompt originalQuery originalVariables originalExplanation
        err mermaid relevantSourceCode = a ++ originalExplanation ++ b) ∧
    (∃ a b, fixQueryPrompt prompt originalQuery originalVariables originalExplanation
        err mermaid relevantSourceCode = a ++ err ++ b) ∧
    (fixQueryStep prompt schema mermaid relevantSourceCode originalQuery
        originalVariables originalExplanation (some err) engine executor).2
      = [(jsTrim qm, jsTrim vm)] := by
  refine ⟨⟨fixPart1 ++ prompt ++ fixPart2, ?_, ?_⟩,
    ⟨fixPart1 ++ prompt ++ fixPart2 ++ originalQuery ++ fixPart3, ?_, ?_⟩,
    ⟨fixPart1 ++ prompt ++ fixPart2 ++ originalQuery ++ fixPart3 ++ originalVariables ++
      fixPart4, ?_, ?_⟩,
    ⟨fixPart1 ++ prompt ++ fixPart2 ++ originalQuery ++ fixPart3 ++ originalVariables ++
      fixPart4 ++ originalExplanation ++ fixPart5, ?_, ?_⟩, ?_⟩
  · exact fixPart3 ++ originalVariables ++ fixPart4 ++ originalExplanation ++ fixPart5 ++
      err ++ fixPart6 ++ mermaid ++ fixPart7 ++
      (if relevantSourceCode = "" then "No relevant source code comments found."
        else relevantSourceCode) ++ fixPart8
  · simp [fixQueryPrompt, String.append_assoc]
  · exact fixPart4 ++ originalExplanation ++ fixPart5 ++ err ++ fixPart6 ++ mermaid ++
      fixPart7 ++
      (if relevantSourceCode = "" then "No relevant source code comments found."
        else relevantSourceCode) ++ fixPart8
  · simp [fixQueryPrompt, String.append_assoc]
  · exact fixPart5 ++ err ++ fixPart6 ++ mermaid ++ fixPart7 ++
      (if relevantSourceCode = "" then "No relevant source code comments found."
        else relevantSourceCode) ++ fixPart8
  · simp [fixQueryPrompt, String.append_assoc]
  · exact fixPart6 ++ mermaid ++ fixPart7 ++
      (if relevantSourceCode = "" then "No relevant source code comments found."
        else relevantSourceCode) ++ fixPart8
  · simp [fixQueryPrompt, String.append_assoc]
  · rw [fixQueryStep, if_neg]
    · simp only [heng, hqm, hvm, if_neg hqm2, if_neg hvm2]
      cases h : (executor (jsTrim qm) (jsTrim vm)).success <;> simp [h]
    · simp [hp, hs, hq, hv]

/-- Witness for `c3_repair_prompt_and_execution`: the engine returns a repair
query character-identical to the failed query `query \x7b a \x7d`; the step
still submits it to the Query Executor. -/
theorem c3_repair_prompt_and_execution_witness :
    (fixQueryStep "question" "schema" "diagram" "" "query \x7b a \x7d" "\x7b\x7d" "expl"
        (some "boom")
        (fun _ => some "<query>query \x7b a \x7d</query><variables>\x7b\x7d</variables>")
        (fun _ _ => ⟨false, ""⟩)).2
      = [("query \x7b a \x7d", "\x7b\x7d")] := by
  have h := c3_repair_prompt_and_execution "question" "schema" "diagram" ""
    "query \x7b a \x7d" "\x7b\x7d" "expl" "boom"
    "<query>query \x7b a \x7d</query><variables>\x7b\x7d</variables>"
    "query \x7b a \x7d" "\x7b\x7d"
    (fun _ => some "<query>query \x7b a \x7d</query><variables>\x7b\x7d</variables>")
    (fun _ _ => ⟨false, ""⟩)
    (by decide) (by decide) (by decide) (by decide) rfl (by decide) (by decide)
    (by decide) (by decide)
  have h5 := h.2.2.2.2
  rw [h5]
  decide

/-! ### The standalone fixQuery step variant (steps/fix-query, part_009)

This variant of the repair step preserves the corrected attempt's query,
variables and serialized errors in its failure output (part_009 lines
384-392), unlike the fixQuery of graphql-execution.ts which blanks them. -/

/-- Result of `parseAgentResponse` in the fix-query step file (part_009 lines
224-266): corrected query/variables with fallback to the originals for empty
captures, plus the raw response. -/
structure ParsedFixResponse where
  query : String
  variablesText : String
  rawResponse : String
deriving DecidableEq, Repr

/-- Embedding of `parseAgentResponse(responseText, originalQuery,
originalVariables)` of part_009 (for non-null `responseText`). -/
def parseFixResponse (responseText originalQuery originalVariables : String) :
    ParsedFixResponse :=
  match extractBetween "<query>" "</query>" responseText,
      extractBetween "<variables>" "</variables>" responseText with
  | some qm, some vm =>
    ⟨if qm = "" then originalQuery else jsTrim qm,
      if vm = "" then originalVariables else jsTrim vm,
      responseText⟩
  | _, _ => ⟨"", "", responseText⟩

/-- Outcome of one execution of the corrected query, as consumed by the step:
the success flag, the serialized `data`, and `JSON.stringify` of the `errors`
value. -/
structure FixExecResult where
  success : Bool
  dataJson : String
  errorsSerialized : String
deriving DecidableEq, Repr

/-- Embedding of `executeFixedQuery` (part_009 lines 271-300): an empty query
or variables string short-circuits without consulting the Query Executor. -/
def executeFixedQuery (query variablesText : String)
    (executor : String → String → FixExecResult) : FixExecResult :=
  if query = "" ∨ variablesText = "" then
    ⟨false, "", "\"Missing query or variables\""⟩
  else executor query variablesText

/-- Output record of the standalone fixQuery step (`queryOutput` shape used by
part_009): `errors` is `none` when the returned object has no `errors` field. -/
structure FixQueryVariantOutput where
  response : String
  query : String
  variablesText : String
  explanation : String
  success : Bool
  errors : Option String
deriving DecidableEq, Repr

/-- Embedding of the standalone fixQuery step (part_009 lines 303-393).
`valid` is the outcome of the zod input validation; `engineText` is the agent
response after `generateFixedQuery` collapsed missing/empty text to `none`. -/
def fixQueryStepVariant (valid : Bool) (originalQuery originalVariables : String)
    (engineText : Option String) (executor : String → String → FixExecResult) :
    FixQueryVariantOutput :=
  if !valid then
    ⟨"", "", "", "Missing required data for fixQuery step", false,
      some "Invalid input data"⟩
  else
    match engineText with
    | none =>
      ⟨"", "", "", "Failed to generate fixed query from AI agent", false, none⟩
    | some text =>
      let parsed := parseFixResponse text originalQuery originalVariables
      if parsed.query = "" ∨ parsed.variablesText = "" then
        ⟨"AI Did not generate a fixed query in the expected format", "", "", text,
          false, none⟩
      else
        let res := executeFixedQuery parsed.query parsed.variablesText executor
        if res.success then
          ⟨res.dataJson, parsed.query, parsed.variablesText, parsed.rawResponse,
            true, none⟩
        else
          ⟨"Corrected query failed to execute", parsed.query, parsed.variablesText,
            parsed.rawResponse, false, some res.errorsSerialized⟩

/-- Counterexample to C6 as stated: in the fixQuery step of
graphql-execution.ts, when the repaired attempt's execution fails (the
run's last attempt, all attempts now consumed), the delivered output blanks
the attempt's query and variables — the corrected query
`query \x7b b \x7d` was submitted to the executor, yet the terminal output
carries empty strings instead of it. -/
theorem c6_counterexample :
    (fixQueryStep "question" "schema" "diagram" "" "query \x7b a \x7d" "\x7b\x7d"
        "expl" (some "field a not found")
        (fun _ => some "<query>query \x7b b \x7d</query><variables>\x7b\x7d</variables>")
        (fun _ _ => ⟨false, ""⟩)).2
      = [("query \x7b b \x7d", "\x7b\x7d")] ∧
    (fixQueryStep "question" "schema" "diagram" "" "query \x7b a \x7d" "\x7b\x7d"
        "expl" (some "field a not found")
        (fun _ => some "<query>query \x7b b \x7d</query><variables>\x7b\x7d</variables>")
        (fun _ _ => ⟨false, ""⟩)).1.query = "" ∧
    (fixQueryStep "question" "schema" "diagram" "" "query \x7b a \x7d" "\x7b\x7d"
        "expl" (some "field a not found")
        (fun _ => some "<query>query \x7b b \x7d</query><variables>\x7b\x7d</variables>")
        (fun _ _ => ⟨false, ""⟩)).1.variablesText = "" := by
  refine ⟨?_, ?_, ?_⟩ <;>
    · rw [fixQueryStep, if_neg (by decide)]
      decide

/-- C6 (amended): the standalone fixQuery step variant (part_009) does deliver
the exhausted run's diagnostics: when the corrected attempt's execution fails,
the output preserves that attempt's query, its variables, and the serialized
execution errors, and none of them is replaced by an empty string; the
fixQuery step of graphql-execution.ts instead blanks query and variables in
its failure output, keeping only the agent's raw text as `explanation`. -/
theorem c6_exhausted_diagnostics (originalQuery originalVariables text : String)
    (executor : String → String → FixExecResult)
    (hq : (parseFixResponse text originalQuery originalVariables).query ≠ "")
    (hv : (parseFixResponse text originalQuery originalVariables).variablesText ≠ "")
    (hfail : (executor (parseFixResponse text originalQuery originalVariables).query
        (parseFixResponse text originalQuery originalVariables).variablesText).success
      = false) :
    (fixQueryStepVariant true originalQuery originalVariables (some text)
        executor).query
      = (parseFixResponse text originalQuery originalVariables).query ∧
    (fixQueryStepVariant true originalQuery originalVariables (some text)
        executor).variablesText
      = (parseFixResponse text originalQuery originalVariables).variablesText ∧
    (fixQueryStepVariant true originalQuery originalVariables (some text)
        executor).errors
      = some (executor (parseFixResponse text originalQuery originalVariables).query
          (parseFixResponse text originalQuery originalVariables).variablesText).errorsSerialized ∧
    (fixQueryStepVariant true originalQuery originalVariables (some text)
        executor).success = false := by
  have hexec : executeFixedQuery
      (parseFixResponse text originalQuery originalVariables).query
      (parseFixResponse text originalQuery originalVariables).variablesText executor
    = executor (parseFixResponse text originalQuery originalVariables).query
        (parseFixResponse text originalQuery originalVariables).variablesText := by
    rw [executeFixedQuery, if_neg]
    intro h
    rcases h with h | h
    · exact hq h
    · exact hv h
  have hcond : ¬((parseFixResponse text originalQuery originalVariables).query = "" ∨
      (parseFixResponse text originalQuery originalVariables).variablesText = "") := by
    rintro (h | h)
    · exact hq h
    · exact hv h
  rw [fixQueryStepVariant]
  simp only [Bool.not_true, if_neg (by simp : ¬((!true) = true))]
  simp only [if_neg hcond, hexec, hfail]
  simp

/-- Witness for `c6_exhausted_diagnostics`: a concrete failed repair keeps the
corrected query, its variables and the serialized error in the output. -/
theorem c6_exhausted_diagnostics_witness :
    (fixQueryStepVariant true "query \x7b a \x7d" "\x7b\x7d"
        (some "<query>query \x7b b \x7d</query><variables>\x7b\x7d</variables>")
        (fun _ _ => ⟨false, "", "[\"field b not found\"]"⟩)).query
      = "query \x7b b \x7d" ∧
    (fixQueryStepVariant true "query \x7b a \x7d" "\x7b\x7d"
        (some "<query>query \x7b b \x7d</query><variables>\x7b\x7d</variables>")
        (fun _ _ => ⟨false, "", "[\"field b not found\"]"⟩)).errors
      = some "[\"field b not found\"]" := by
  have h := c6_exhausted_diagnostics "query \x7b a \x7d" "\x7b\x7d"
    "<query>query \x7b b \x7d</query><variables>\x7b\x7d</variables>"
    (fun _ _ => ⟨false, "", "[\"field b not found\"]"⟩)
    (by decide) (by decide) (by decide)
  refine ⟨?_, ?_⟩
  · rw [h.1]
    decide
  · rw [h.2.2.1]

/-! ### The generateQuery step (`src/mastra/steps/generate-query.ts`) -/

/-- Result of `parseAgentResponse` (generate-query.ts lines 301-332). The
`variables` default is the two-character string `{}` (written `\x7b\x7d`). -/
structure ParsedAgentResponse where
  query : String
  variablesText : String
  explanation : String
  rawResponse : String
deriving DecidableEq, Repr

/-- Embedding of `parseAgentResponse` (generate-query.ts lines 301-332): each
absent tag falls back to its default (empty string for query and explanation,
`\x7b\x7d` for variables) instead of raising. -/
def parseAgentResponse (responseText : Option String) : ParsedAgentResponse :=
  match responseText with
  | none => ⟨"", "\x7b\x7d", "", ""⟩
  | some t =>
    ⟨((extractBetween "<query>" "</query>" t).map jsTrim).getD "",
      ((extractBetween "<variables>" "</variables>" t).map jsTrim).getD "\x7b\x7d",
      ((extractBetween "<explanation>" "</explanation>" t).map jsTrim).getD "",
      t⟩

/-- Embedding of `callAIAgent` (generate-query.ts lines 287-296): a missing or
empty agent response becomes `none`. -/
def callAIAgent (raw : Option String) : Option String :=
  match raw with
  | none => none
  | some t => if t = "" then none else some t

/-- Outcome of `executeGeneratedQuery` as consumed by the step: success flag
plus the serialized `data`, `message`, and `errors` values. -/
structure GenExecResult where
  success : Bool
  dataJson : String
  messageJson : String
  errorsJson : String
deriving DecidableEq, Repr

/-- Output record of the generateQuery step (`queryOutput` shape). -/
structure GenerateQueryOutput where
  query : String
  variablesText : String
  explanation : String
  response : String
  success : Bool
  errors : String
deriving DecidableEq, Repr

/-- Embedding of the generateQuery step (generate-query.ts lines 371-456).
`inputValid` is the zod validation outcome, `rawEngine` the raw agent
response, `executor` the `graphqlQuery` oracle; the second component lists the
(query, variables) pairs submitted to the Query Executor. -/
def generateQueryStep (inputValid : Bool) (rawEngine : Option String)
    (executor : String → String → GenExecResult) :
    GenerateQueryOutput × List (String × String) :=
  if !inputValid then
    (⟨"", "\x7b\x7d", "", "", false, "Invalid or missing input data"⟩, [])
  else
    match callAIAgent rawEngine with
    | none =>
      (⟨"", "\x7b\x7d", "AI agent failed to generate a response", "", false,
        "AI agent failed to generate a response"⟩, [])
    | some t =>
      let parsed := parseAgentResponse (some t)
      if parsed.query = "" then
        (⟨"", "\x7b\x7d", t, "", false,
          "AI agent did not return a query in the expected format"⟩, [])
      else
        let res := executor parsed.query parsed.variablesText
        if res.success then
          (⟨parsed.query, parsed.variablesText, parsed.explanation, res.dataJson,
            true, ""⟩, [(parsed.query, parsed.variablesText)])
        else
          (⟨parsed.query, parsed.variablesText, parsed.explanation, res.messageJson,
            false, res.errorsJson⟩, [(parsed.query, parsed.variablesText)])

/-- C7: when the agent response contains no `<query>` tag, parsing yields the
empty-string default for `query` (no error is raised — the parse is total),
and the generateQuery step returns a failed attempt without submitting
anything to the Query Executor, preserving the raw response text in the
output's `explanation` field. -/
theorem c7_no_query_tag (t : String) (ht : t ≠ "")
    (hq : extractBetween "<query>" "</query>" t = none)
    (executor : String → String → GenExecResult) :
    (parseAgentResponse (some t)).query = "" ∧
    (generateQueryStep true (some t) executor).1.success = false ∧
    (generateQueryStep true (some t) executor).2 = [] ∧
    (generateQueryStep true (some t) executor).1.explanation = t := by
  have hp : (parseAgentResponse (some t)).query = "" := by
    rw [parseAgentResponse]
    simp [hq]
  refine ⟨hp, ?_, ?_, ?_⟩ <;>
    · rw [generateQueryStep]
      simp [callAIAgent, ht, hp]

/-- Witness for `c7_no_query_tag`: an agent response with no `<query>` tag is
turned into a non-executing failed attempt that keeps the raw text. -/
theorem c7_no_query_tag_witness :
    (parseAgentResponse (some "I cannot produce a query")).query = "" ∧
    (generateQueryStep true (some "I cannot produce a query")
        (fun _ _ => ⟨true, "", "", ""⟩)).1.success = false ∧
    (generateQueryStep true (some "I cannot produce a query")
        (fun _ _ => ⟨true, "", "", ""⟩)).2 = [] ∧
    (generateQueryStep true (some "I cannot produce a query")
        (fun _ _ => ⟨true, "", "", ""⟩)).1.explanation = "I cannot produce a query" :=
  c7_no_query_tag "I cannot produce a query" (by decide) (by decide) (fun _ _ => ⟨true, "", "", ""⟩)

/-! ### Result Analyzer relevance parsing (graphql-execution.ts lines 541-625)

The analyzeQuery step extracts the relevance score with
`res.text.match(/Relevance score:\s*(\d+)\/10/i)`.  The scanner below is the
embedding of that regex for ASCII text: at each position it tries to match the
case-folded literal `relevance score:`, then a maximal whitespace run, then a
maximal non-empty digit run, then the literal `/10`; maximal-munch is exact
here because whitespace, digits and the following `/` are pairwise disjoint,
so the regex engine never backtracks inside a successful position. -/

/-- The case-folded literal of the relevance regex. -/
def relevanceLiteral : List Char := "relevance score:".toList

/-- Case-insensitive literal match: consume `pat` (already lower-case) from
the head of the text, returning the remainder. -/
def matchLowerLit : List Char → List Char → Option (List Char)
  | [], cs => some cs
  | _ :: _, [] => none
  | p :: ps, c :: cs => if c.toLower = p then matchLowerLit ps cs else none

/-- Numeric value of a digit run, as `Number.parseInt(digits, 10)` computes
it. -/
def digitsToNat (ds : List Char) : Nat :=
  ds.foldl (fun n c => n * 10 + (c.toNat - 48)) 0

/-- Attempt of the relevance regex at one position: the captured score if the
pattern matches here. -/
def tryMatchRelevance (cs : List Char) : Option Nat :=
  match matchLowerLit relevanceLiteral cs with
  | none => none
  | some rest =>
    let afterWs := rest.dropWhile isJsWhitespace
    let ds := afterWs.takeWhile Char.isDigit
    if ds.isEmpty then none
    else if ("/10".toList).isPrefixOf (afterWs.drop ds.length) then
      some (digitsToNat ds)
    else none

/-- Left-to-right scan of the regex engine: the leftmost position where the
relevance pattern matches. -/
def findRelevance : List Char → Option Nat
  | [] => none
  | c :: cs =>
    match tryMatchRelevance (c :: cs) with
    | some x => some x
    | none => findRelevance cs

/-- Declarative reading of "the relevance pattern matches at this position
with value `x`": the text decomposes into the case-folded literal, a
whitespace run, a non-empty digit run with value `x`, and `/10`. -/
def MatchesAt (cs : List Char) (x : Nat) : Prop :=
  ∃ lit ws ds rest,
    cs = lit ++ ws ++ ds ++ ('/' :: '1' :: '0' :: rest) ∧
    lit.map Char.toLower = relevanceLiteral ∧
    (∀ c ∈ ws, isJsWhitespace c = true) ∧
    ds ≠ [] ∧ (∀ c ∈ ds, c.isDigit = true) ∧
    digitsToNat ds = x

/-- Soundness of the literal matcher: success exhibits a consumed prefix that
case-folds to the pattern. -/
theorem matchLowerLit_sound :
    ∀ (pat cs rest : List Char), matchLowerLit pat cs = some rest →
      ∃ pre, cs = pre ++ rest ∧ pre.map Char.toLower = pat := by
  intro pat
  induction pat with
  | nil =>
    intro cs rest h
    rw [matchLowerLit] at h
    simp only [Option.some.injEq] at h
    exact ⟨[], by simp [h], rfl⟩
  | cons p ps ih =>
    intro cs rest h
    cases cs with
    | nil => exact absurd h (by rw [matchLowerLit]; simp)
    | cons c cs' =>
      rw [matchLowerLit] at h
      by_cases hc : c.toLower = p
      · rw [if_pos hc] at h
        obtain ⟨pre, hpre, hmap⟩ := ih cs' rest h
        exact ⟨c :: pre, by rw [hpre]; rfl, by simp [hmap, hc]⟩
      · rw [if_neg hc] at h
        exact absurd h (by simp)

/-- Completeness of the literal matcher: a prefix that case-folds to the
pattern is consumed exactly. -/
theorem matchLowerLit_complete :
    ∀ (lit t : List Char), matchLowerLit (lit.map Char.toLower) (lit ++ t) = some t := by
  intro lit
  induction lit with
  | nil => intro t; rfl
  | cons c cs ih =>
    intro t
    simp only [List.map_cons, List.cons_append]
    rw [matchLowerLit, if_pos rfl]
    exact ih t

/-- A JavaScript whitespace character is not a digit. -/
theorem jsWhitespace_not_digit (c : Char) (h : isJsWhitespace c = true) :
    c.isDigit = false := by
  rw [isJsWhitespace] at h
  simp only [Bool.or_eq_true, decide_eq_true_eq] at h
  rcases h with ((((h | h) | h) | h) | h) | h <;> rw [h] <;> decide

/-- A digit is not JavaScript whitespace. -/
theorem digit_not_jsWhitespace (c : Char) (h : c.isDigit = true) :
    isJsWhitespace c = false := by
  by_contra hw
  have hw' : isJsWhitespace c = true := by
    cases hht : isJsWhitespace c
    · exact absurd hht hw
    · rfl
  rw [jsWhitespace_not_digit c hw'] at h
  exact Bool.noConfusion h

/-- Dropping while `p` holds skips a run on which `p` holds everywhere. -/
theorem dropWhile_append_of_forall (p : Char → Bool) :
    ∀ (ws rest : List Char), (∀ c ∈ ws, p c = true) →
      (ws ++ rest).dropWhile p = rest.dropWhile p := by
  intro ws
  induction ws with
  | nil => intro rest _; rfl
  | cons c cs ih =>
    intro rest h
    have hc : p c = true := h c (List.mem_cons_self c cs)
    simp only [List.cons_append, List.dropWhile_cons, hc, if_true]
    exact ih rest fun d hd => h d (List.mem_cons_of_mem c hd)

/-- Taking while `p` holds keeps a whole run on which `p` holds everywhere. -/
theorem takeWhile_append_of_forall (p : Char → Bool) :
    ∀ (ds rest : List Char), (∀ c ∈ ds, p c = true) →
      (ds ++ rest).takeWhile p = ds ++ rest.takeWhile p := by
  intro ds
  induction ds with
  | nil => intro rest _; rfl
  | cons c cs ih =>
    intro rest h
    have hc : p c = true := h c (List.mem_cons_self c cs)
    simp only [List.cons_append, List.takeWhile_cons, hc, if_true]
    rw [ih rest fun d hd => h d (List.mem_cons_of_mem c hd)]

/-- The regex attempt succeeds at a position exactly when the declarative
pattern matches there with the same value. -/
theorem tryMatchRelevance_iff (cs : List Char) (x : Nat) :
    tryMatchRelevance cs = some x ↔ MatchesAt cs x := by
  constructor
  · intro h
    rw [tryMatchRelevance] at h
    cases hm : matchLowerLit relevanceLiteral cs with
    | none => rw [hm] at h; exact absurd h (by simp)
    | some rest =>
      rw [hm] at h
      simp only at h
      obtain ⟨lit, hcs, hmap⟩ := matchLowerLit_sound relevanceLiteral cs rest hm
      by_cases hde : (rest.dropWhile isJsWhitespace).takeWhile Char.isDigit = []
      · rw [if_pos (by simp [hde])] at h
        exact absurd h (by simp)
      · rw [if_neg (by simp [hde])] at h
        set afterWs := rest.dropWhile isJsWhitespace with hafter
        set ds := afterWs.takeWhile Char.isDigit with hds
        by_cases hpre : ("/10".toList).isPrefixOf (afterWs.drop ds.length) = true
        · rw [if_pos hpre] at h
          have hx : digitsToNat ds = x := by simpa using h
          obtain ⟨t, ht⟩ : ∃ t, afterWs = ds ++ t := by
            obtain ⟨t, ht⟩ := (List.takeWhile_prefix Char.isDigit :
              afterWs.takeWhile Char.isDigit <+: afterWs)
            exact ⟨t, ht.symm⟩
          have hdrop : afterWs.drop ds.length = t := by
            rw [ht, List.drop_left]
          obtain ⟨u, hu⟩ : ∃ u, afterWs.drop ds.length = "/10".toList ++ u :=
            (List.isPrefixOf_iff_prefix.mp hpre).imp (fun u hu => hu.symm)
          have ht10 : t = '/' :: '1' :: '0' :: u := by
            rw [← hdrop, hu]
            rfl
          obtain ⟨ws0, hws0⟩ : ∃ w, w = rest.takeWhile isJsWhitespace := ⟨_, rfl⟩
          have hsplit : ws0 ++ afterWs = rest := by
            rw [hws0]
            exact List.takeWhile_append_dropWhile isJsWhitespace rest
          have hrest : rest = ws0 ++ (ds ++ ('/' :: '1' :: '0' :: u)) := by
            conv_lhs => rw [← hsplit]
            rw [ht, ht10]
          refine ⟨lit, ws0, ds, u, ?_, hmap, ?_, hde, ?_, hx⟩
          · rw [hcs, hrest]
            simp [List.append_assoc]
          · intro c hc
            rw [hws0] at hc
            exact List.mem_takeWhile_imp hc
          · intro c hc
            exact List.mem_takeWhile_imp (hds ▸ hc)
        · rw [if_neg hpre] at h
          exact absurd h (by simp)
  · rintro ⟨lit, ws, ds, rest, hcs, hmap, hws, hne, hdig, hval⟩
    have hhead : ∃ d ds', ds = d :: ds' := by
      cases ds with
      | nil => exact absurd rfl hne
      | cons d ds' => exact ⟨d, ds', rfl⟩
    obtain ⟨d, ds', hdds⟩ := hhead
    have hlit : matchLowerLit relevanceLiteral cs
        = some (ws ++ ds ++ ('/' :: '1' :: '0' :: rest)) := by
      rw [hcs, ← hmap]
      have := matchLowerLit_complete lit (ws ++ ds ++ ('/' :: '1' :: '0' :: rest))
      simpa [List.append_assoc] using this
    have hafter : (ws ++ ds ++ ('/' :: '1' :: '0' :: rest)).dropWhile isJsWhitespace
        = ds ++ ('/' :: '1' :: '0' :: rest) := by
      rw [List.append_assoc, dropWhile_append_of_forall isJsWhitespace ws _ hws]
      rw [hdds]
      simp only [List.cons_append, List.dropWhile_cons]
      rw [digit_not_jsWhitespace d (hdig d (hdds ▸ List.mem_cons_self d ds'))]
      simp
    have htake : (ds ++ ('/' :: '1' :: '0' :: rest)).takeWhile Char.isDigit = ds := by
      rw [takeWhile_append_of_forall Char.isDigit ds _ hdig]
      simp [List.takeWhile_cons]
    rw [tryMatchRelevance, hlit]
    simp only [hafter, htake]
    rw [if_neg (by simp [hne] : ¬(ds.isEmpty = true))]
    rw [if_pos]
    · rw [hval]
    · rw [List.drop_left]
      exact List.isPrefixOf_iff_prefix.mpr ⟨rest, rfl⟩

/-- A successful scan exhibits a position where the pattern matches. -/
theorem findRelevance_some_exists :
    ∀ (cs : List Char) (x : Nat), findRelevance cs = some x →
      ∃ n, tryMatchRelevance (cs.drop n) = some x := by
  intro cs
  induction cs with
  | nil => intro x h; exact absurd h (by rw [findRelevance]; simp)
  | cons c cs' ih =>
    intro x h
    rw [findRelevance] at h
    cases ht : tryMatchRelevance (c :: cs') with
    | some y =>
      rw [ht] at h
      simp only [Option.some.injEq] at h
      exact ⟨0, by rw [List.drop_zero, ht, h]⟩
    | none =>
      rw [ht] at h
      simp only at h
      obtain ⟨n, hn⟩ := ih x h
      exact ⟨n + 1, by simpa using hn⟩

/-- The scan returns the value of the leftmost matching position. -/
theorem findRelevance_of_leftmost :
    ∀ (cs : List Char) (n : Nat) (x : Nat),
      tryMatchRelevance (cs.drop n) = some x →
      (∀ m < n, tryMatchRelevance (cs.drop m) = none) →
      findRelevance cs = some x := by
  intro cs
  induction cs with
  | nil =>
    intro n x h _
    rw [List.drop_nil] at h
    have hnone : tryMatchRelevance [] = none := rfl
    rw [hnone] at h
    exact Option.noConfusion h
  | cons c cs' ih =>
    intro n x h hmin
    cases n with
    | zero =>
      rw [List.drop_zero] at h
      rw [findRelevance, h]
    | succ n' =>
      have h0 : tryMatchRelevance (c :: cs') = none := by
        have := hmin 0 (Nat.succ_pos n')
        simpa using this
      rw [findRelevance, h0]
      exact ih n' x (by simpa using h)
        fun m hm => by simpa using hmin (m + 1) (Nat.succ_lt_succ hm)

/-- Output of the analyzeQuery step (graphql-execution.ts lines 541-625). -/
structure AnalysisOutput where
  analysis : String
  relevance : Nat
deriving DecidableEq, Repr

/-- Embedding of the analyzeQuery step body (graphql-execution.ts lines
548-624).  `engineOutcome` is the outcome of everything up to and including
`analysisAgent.generate`: `.error e` models any exception reaching the
step's `catch` (line 617), `.ok none` a missing response object, and
`.ok (some t)` a response with text `t` (an empty `t` fails the `!res.text`
check, line 599). -/
def analyzeQueryStep (engineOutcome : Except String (Option String)) : AnalysisOutput :=
  match engineOutcome with
  | .error e => ⟨"Failed to analyze query results: " ++ e, 0⟩
  | .ok none => ⟨"Failed to analyze the query results.", 0⟩
  | .ok (some t) =>
    if t = "" then ⟨"Failed to analyze the query results.", 0⟩
    else
      match findRelevance t.toList with
      | some x => ⟨t, min 10 (max 0 x)⟩
      | none => ⟨t, 5⟩

/-- Helper for refuting matches at every position of a finite text: beyond the
text's length every position is the empty list, where the pattern cannot
match. -/
theorem tryMatchRelevance_drop_none (cs : List Char)
    (h : ∀ m < cs.length, tryMatchRelevance (cs.drop m) = none) :
    ∀ n, tryMatchRelevance (cs.drop n) = none := by
  intro n
  rcases Nat.lt_or_ge n cs.length with hlt | hge
  · exact h n hlt
  · rw [List.drop_eq_nil_of_le hge]
    rfl

/-- C8: for every analyzer response text, if the relevance pattern
`Relevance score: X/10` (case-insensitive) matches leftmost at some position
with value `x`, the step returns relevance `min 10 (max 0 x)` — the value
clamped to `[0, 10]`; if the pattern matches nowhere, the step returns the
neutral default 5.  Both cases produce a total result (no exception). -/
theorem c8_relevance_parsing (t : String) (ht : t ≠ "") :
    (∀ n x, MatchesAt (t.toList.drop n) x →
      (∀ m < n, ∀ y, ¬ MatchesAt (t.toList.drop m) y) →
      (analyzeQueryStep (.ok (some t))).relevance = min 10 (max 0 x) ∧
      (analyzeQueryStep (.ok (some t))).relevance ≤ 10) ∧
    ((∀ n y, ¬ MatchesAt (t.toList.drop n) y) →
      (analyzeQueryStep (.ok (some t))).relevance = 5) := by
  constructor
  · intro n x hmatch hleft
    have hsome : tryMatchRelevance (t.toList.drop n) = some x :=
      (tryMatchRelevance_iff _ x).mpr hmatch
    have hnone : ∀ m < n, tryMatchRelevance (t.toList.drop m) = none := by
      intro m hm
      cases hc : tryMatchRelevance (t.toList.drop m) with
      | none => rfl
      | some y =>
        exact absurd ((tryMatchRelevance_iff _ y).mp hc) (hleft m hm y)
    have hfind : findRelevance t.data = some x :=
      findRelevance_of_leftmost t.toList n x hsome hnone
    constructor
    · rw [analyzeQueryStep]
      simp [ht, hfind]
    · rw [analyzeQueryStep]
      simp [ht, hfind]
  · intro hno
    have hfind : findRelevance t.data = none := by
      cases hc : findRelevance t.toList with
      | none => exact hc
      | some x =>
        obtain ⟨n, hn⟩ := findRelevance_some_exists t.toList x hc
        exact absurd ((tryMatchRelevance_iff _ x).mp hn) (hno n x)
    rw [analyzeQueryStep]
    simp [ht, hfind]

/-- Witness for `c8_relevance_parsing`: the text
`The data shows X.\nRelevance score: 7/10` yields relevance 7, and a text
with no relevance line yields the default 5. -/
theorem c8_relevance_parsing_witness :
    (analyzeQueryStep (.ok (some "The data shows X.\nRelevance score: 7/10"))).relevance
      = 7 ∧
    (analyzeQueryStep (.ok (some "no score here"))).relevance = 5 := by
  constructor
  · have h := (c8_relevance_parsing "The data shows X.\nRelevance score: 7/10"
      (by decide)).1 18 7
      ⟨"Relevance score:".toList, [' '], ['7'], [], by decide, by decide,
        by decide, by decide, by decide, by decide⟩
      (by
        have hb : ∀ m < 18, tryMatchRelevance
            (("The data shows X.\nRelevance score: 7/10").toList.drop m) = none := by
          decide
        intro m hm y hy
        have := (tryMatchRelevance_iff _ y).mpr hy
        rw [hb m hm] at this
        exact Option.noConfusion this)
    rw [h.1]
    decide
  · apply (c8_relevance_parsing "no score here" (by decide)).2
    have hb : ∀ m < ("no score here").toList.length,
        tryMatchRelevance (("no score here").toList.drop m) = none := by
      decide
    intro n y hy
    have := (tryMatchRelevance_iff _ y).mpr hy
    rw [tryMatchRelevance_drop_none _ hb n] at this
    exact Option.noConfusion this

/-- C9: a missing (or empty) Completion Engine response makes the Result
Analyzer return the fixed string `Failed to analyze the query results.` with
relevance 0, and any exception reaching the step's catch is surfaced as a
degraded analysis value with relevance 0 instead of propagating — the step is
a total function into `AnalysisOutput`. -/
theorem c9_analysis_fallback :
    analyzeQueryStep (.ok none) = ⟨"Failed to analyze the query results.", 0⟩ ∧
    analyzeQueryStep (.ok (some "")) = ⟨"Failed to analyze the query results.", 0⟩ ∧
    (∀ e, analyzeQueryStep (.error e)
      = ⟨"Failed to analyze query results: " ++ e, 0⟩) := by
  refine ⟨rfl, rfl, fun e => rfl⟩

/-! ### The bounded repair loop

Control-flow model of the generation → execution → analysis → retry loop.
The retry policy is that of the part_005 workflow's analyzeResult step
(lines 830-928): the attempt counter starts at 1 (planQuery, line 646),
is incremented on each retry (line 706), and a failed attempt retries
exactly when `attemptCount < MAX_RETRIES` (line 880), so the budget `N`
below instantiates to `MAX_RETRIES = 2` there.  A generation failure
(engine returns nothing parseable) consumes an attempt without consulting
the Query Executor, as in generate-query.ts lines 408-419. -/

/-- Terminal state of a run: either some attempt succeeded, or the budget was
exhausted, with the final attempt index. -/
inductive RunOutcome
  | succeeded (attemptCount : Nat)
  | exhausted (attemptCount : Nat)
deriving DecidableEq, Repr

/-- Observable trace of a run: its outcome, how many generation attempts were
made, and how many times the Query Executor was invoked. -/
structure RunTrace where
  outcome : RunOutcome
  generationAttempts : Nat
  executorCalls : Nat
deriving DecidableEq, Repr

/-- One run of the repair loop starting at attempt index `attemptCount`.
`engine k` is the parse result of the Completion Engine's output for attempt
`k` (`none`: no parseable query, a failed generation); `executor k` tells
whether executing attempt `k` succeeded. -/
def repairLoopFrom (maxAttempts : Nat) (engine : Nat → Option (String × String))
    (executor : Nat → Bool) (attemptCount : Nat) : RunTrace :=
  let calls := if (engine attemptCount).isSome then 1 else 0
  if (engine attemptCount).isSome && executor attemptCount then
    ⟨.succeeded attemptCount, 1, calls⟩
  else if _h : attemptCount < maxAttempts then
    let rest := repairLoopFrom maxAttempts engine executor (attemptCount + 1)
    ⟨rest.outcome, rest.generationAttempts + 1, rest.executorCalls + calls⟩
  else ⟨.exhausted attemptCount, 1, calls⟩
termination_by maxAttempts - attemptCount

/-- A full run starts at attempt index 1 with the configured budget. -/
def repairLoop (maxAttempts : Nat) (engine : Nat → Option (String × String))
    (executor : Nat → Bool) : RunTrace :=
  repairLoopFrom maxAttempts engine executor 1

/-- Bound on the suffix of a run: starting at attempt `a ≤ N`, at most
`N + 1 - a` generation attempts and executor calls remain. -/
theorem repairLoopFrom_bounds (maxAttempts : Nat)
    (engine : Nat → Option (String × String)) (executor : Nat → Bool) :
    ∀ d a, maxAttempts - a = d → a ≤ maxAttempts →
      (repairLoopFrom maxAttempts engine executor a).executorCalls
          ≤ maxAttempts + 1 - a ∧
      (repairLoopFrom maxAttempts engine executor a).generationAttempts
          ≤ maxAttempts + 1 - a := by
  intro d
  induction d with
  | zero =>
    intro a hd ha
    rw [repairLoopFrom]
    have hnot : ¬ a < maxAttempts := by omega
    by_cases hs : ((engine a).isSome && executor a) = true
    · rw [if_pos hs]
      constructor <;> simp <;> (try split) <;> omega
    · rw [if_neg hs, dif_neg hnot]
      constructor <;> simp <;> (try split) <;> omega
  | succ d ih =>
    intro a hd ha
    rw [repairLoopFrom]
    by_cases hs : ((engine a).isSome && executor a) = true
    · rw [if_pos hs]
      constructor <;> simp <;> (try split) <;> omega
    · rw [if_neg hs]
      have hlt : a < maxAttempts := by omega
      rw [dif_pos hlt]
      obtain ⟨h1, h2⟩ := ih (a + 1) (by omega) (by omega)
      constructor <;> simp <;> (try split) <;> omega

/-- A run whose generations all fail walks the full budget and exhausts: the
suffix starting at `a ≤ N` makes exactly `N + 1 - a` further generation
attempts, no executor call, and ends `exhausted N`. -/
theorem repairLoopFrom_exhausted (maxAttempts : Nat)
    (engine : Nat → Option (String × String)) (executor : Nat → Bool)
    (hgen : ∀ k, engine k = none) :
    ∀ d a, maxAttempts - a = d → a ≤ maxAttempts →
      repairLoopFrom maxAttempts engine executor a
        = ⟨.exhausted maxAttempts, maxAttempts + 1 - a, 0⟩ := by
  intro d
  induction d with
  | zero =>
    intro a hd ha
    have haN : a = maxAttempts := by omega
    rw [repairLoopFrom]
    rw [hgen a]
    simp only [Option.isSome_none, Bool.false_and, if_neg (by simp : ¬(false = true))]
    rw [dif_neg (by omega : ¬ a < maxAttempts)]
    simp [haN]
    try omega
  | succ d ih =>
    intro a hd ha
    rw [repairLoopFrom]
    rw [hgen a]
    simp only [Option.isSome_none, Bool.false_and, if_neg (by simp : ¬(false = true))]
    have hlt : a < maxAttempts := by omega
    rw [dif_pos hlt]
    rw [ih (a + 1) (by omega) (by omega)]
    simp
    try omega

/-- C1: with attempt budget `maxAttempts = N ≥ 1`, a run of the repair loop
invokes the Query Executor at most `N` times and makes at most `N` generation
attempts; and a run whose Completion Engine always returns unparseable text
terminates (the loop is a total function) in the `Exhausted` terminal state
after exactly `N` generation attempts, with no executor call. -/
theorem c1_attempt_bound (maxAttempts : Nat)
    (engine : Nat → Option (String × String)) (executor : Nat → Bool)
    (hN : 1 ≤ maxAttempts) :
    (repairLoop maxAttempts engine executor).executorCalls ≤ maxAttempts ∧
    (repairLoop maxAttempts engine executor).generationAttempts ≤ maxAttempts ∧
    ((∀ k, engine k = none) →
      repairLoop maxAttempts engine executor
        = ⟨.exhausted maxAttempts, maxAttempts, 0⟩) := by
  obtain ⟨h1, h2⟩ := repairLoopFrom_bounds maxAttempts engine executor
    (maxAttempts - 1) 1 rfl hN
  refine ⟨by rw [repairLoop]; omega, by rw [repairLoop]; omega, ?_⟩
  intro hgen
  rw [repairLoop, repairLoopFrom_exhausted maxAttempts engine executor hgen
    (maxAttempts - 1) 1 rfl hN]
  congr 1

/-- Witness for `c1_attempt_bound`: with `maxAttempts = 2` (the `MAX_RETRIES`
of the source) and an engine that never produces a parseable query, the run
exhausts after exactly 2 generation attempts and 0 executor calls. -/
theorem c1_attempt_bound_witness :
    (repairLoop 2 (fun _ => none) (fun _ => false)).executorCalls ≤ 2 ∧
    repairLoop 2 (fun _ => none) (fun _ => false)
      = ⟨.exhausted 2, 2, 0⟩ := by
  have h := c1_attempt_bound 2 (fun _ => none) (fun _ => false) (by decide)
  exact ⟨h.1, h.2.2 (fun k => rfl)⟩

end GraphQLAgent
